import Mathlib

/-!
Verification of `SyncthingAPI.py` (syncthing-pyselective).

This file gives a shallow embedding, in Lean 4, of the parts of the
`SyncthingAPI` class that the specification talks about:

* the ignore-list codec (`getIgnoreSelective`, `setIgnoreSelective`,
  lines 131-152 of the source),
* the HTTP status handling (`_getRequest`, `_postRequest`, and the public
  queries built on them, lines 65-129 and 200-205),
* the browse-tree normalizer (`_refineBrowseFolderRequest`, `verStr2Num`,
  lines 92-108 and 207-209),
* the ignored/partial flag computation of `getFileInfoExtended`
  (lines 167-194),
* the recursive size aggregator `extendDirSizes` (lines 293-320).

Python lists become `List`, Python dicts become association lists, JSON
values become the inductive `Json`, and raising an exception becomes
`Option`/`Except` results.  Methods that first perform an HTTP fetch are
embedded as pure functions of the fetched value (for example the list
`l = self.getIgnoreList(fid)` becomes a `List String` parameter).
-/

/-! ## Ignore-list codec (sentinel strings and helpers) -/

/-- Line 32 of the source: `self.headerSelectStart`. -/
def headerSelectStart : String := "//* Selective sync (generated by pyselective) *//"

/-- Line 33 of the source: `self.headerSelectFinish`. -/
def headerSelectFinish : String := "//* ignore all except selected *//"

/-- Characters removed by Python's `str.strip()` with no argument
(ASCII whitespace; further Unicode whitespace, also stripped by Python,
does not occur in ignore patterns and is not modelled). -/
def isPySpace (c : Char) : Bool :=
  c == ' ' || c == '\t' || c == '\n' || c == '\r' || c == '\x0b' || c == '\x0c'

/-- Python `s.strip()`: drop whitespace from both ends. -/
def pyStrip (s : String) : String :=
  ⟨((s.data.dropWhile isPySpace).reverse.dropWhile isPySpace).reverse⟩

/-- Python `l.index(x)` on a list that contains `x`: index of the first
occurrence.  (On a list without `x` Python raises `ValueError`; every use
below is guarded by a membership test, exactly as the code either checks
`l.count(x) == 0` first or propagates the exception.) -/
def pyIndex (x : String) : List String → Nat
  | [] => 0
  | y :: ys => if y = x then 0 else pyIndex x ys + 1

/-- `getIgnoreSelective` (source lines 131-138), embedded as a function of
the fetched ignore list `l = self.getIgnoreList(fid)`:
if either sentinel is absent return `[]`, otherwise return the Python
slice `l[indstart+1:indend]` of first-occurrence sentinel indices. -/
def getIgnoreSelective (l : List String) : List String :=
  if l.count headerSelectStart = 0 ∨ l.count headerSelectFinish = 0 then []
  else
    (l.drop (pyIndex headerSelectStart l + 1)).take
      (pyIndex headerSelectFinish l - (pyIndex headerSelectStart l + 1))

/-- Lines 146-149 of the source, the in-place normalization of the caller's
list `il` performed by `setIgnoreSelective`: if `il` has more than one
element and its last element strips to the empty string, the last element
is replaced by `"\n"`; otherwise `"\n"` is appended. -/
def normalizeIl (il : List String) : List String :=
  if 1 < il.length ∧ pyStrip (il.getLastD "") = "" then il.dropLast ++ ["\n"]
  else il ++ ["\n"]

/-- `setIgnoreSelective` (source lines 140-152), embedded as a function of
the fetched ignore list `l` and the caller's list `il`.  The result is
`none` when `l.index` raises `ValueError` (a sentinel is absent) - in that
case the Python code raises before mutating `il` and before any POST - and
otherwise `some (il2, sendlist)` where `il2` is the mutated caller list and
`sendlist = l[:indstart+1] + il2 + l[indend:]` is the list POSTed to
`db/ignores`. -/
def setIgnoreSelective (l il : List String) : Option (List String × List String) :=
  if headerSelectStart ∈ l then
    if headerSelectFinish ∈ l then
      some (normalizeIl il,
        l.take (pyIndex headerSelectStart l + 1) ++ normalizeIl il
          ++ l.drop (pyIndex headerSelectFinish l))
    else none
  else none

/-! ### Helper lemmas about `pyIndex`, `take` and `drop` -/

theorem pyIndex_append_cons (x : String) (A rest : List String) (h : x ∉ A) :
    pyIndex x (A ++ x :: rest) = A.length := by
  induction A with
  | nil => simp [pyIndex]
  | cons a A ih =>
    have hax : a ≠ x := fun hax => h (hax ▸ List.mem_cons_self a A)
    have hA : x ∉ A := fun hx => h (List.mem_cons_of_mem a hx)
    simp [pyIndex, hax, ih hA]

theorem take_length_succ (A : List String) (x : String) (rest : List String) :
    (A ++ x :: rest).take (A.length + 1) = A ++ [x] := by
  induction A with
  | nil => simp
  | cons a A ih => simp [ih]

theorem drop_length_append (A B : List String) :
    (A ++ B).drop A.length = B := by
  simp

theorem headers_ne : headerSelectFinish ≠ headerSelectStart := by decide

theorem newline_ne_finish : "\n" ≠ headerSelectFinish := by decide

/-- Elements of `normalizeIl il` are elements of `il` or `"\n"`; in
particular the finish sentinel never enters through normalization. -/
theorem finish_not_mem_normalizeIl (il : List String)
    (h : headerSelectFinish ∉ il) : headerSelectFinish ∉ normalizeIl il := by
  unfold normalizeIl
  split
  · intro hmem
    rcases List.mem_append.mp hmem with h1 | h2
    · exact h (List.dropLast_sublist il |>.subset h1)
    · have h2' : headerSelectFinish = "\n" := by simpa using h2
      exact newline_ne_finish h2'.symm
  · intro hmem
    rcases List.mem_append.mp hmem with h1 | h2
    · exact h h1
    · have h2' : headerSelectFinish = "\n" := by simpa using h2
      exact newline_ne_finish h2'.symm

/-- First-occurrence index of the start sentinel in a split ignore list. -/
theorem pyIndex_start_split (A B C : List String) (hA : headerSelectStart ∉ A) :
    pyIndex headerSelectStart (A ++ headerSelectStart :: (B ++ headerSelectFinish :: C))
      = A.length :=
  pyIndex_append_cons _ _ _ hA

/-- First-occurrence index of the finish sentinel in a split ignore list. -/
theorem pyIndex_finish_split (A B C : List String)
    (hFA : headerSelectFinish ∉ A) (hFB : headerSelectFinish ∉ B) :
    pyIndex headerSelectFinish (A ++ headerSelectStart :: (B ++ headerSelectFinish :: C))
      = A.length + B.length + 1 := by
  have hsplit : A ++ headerSelectStart :: (B ++ headerSelectFinish :: C)
      = (A ++ headerSelectStart :: B) ++ headerSelectFinish :: C := by simp
  have hnm : headerSelectFinish ∉ A ++ headerSelectStart :: B := by
    intro hmem
    rcases List.mem_append.mp hmem with h1 | h2
    · exact hFA h1
    · rcases List.mem_cons.mp h2 with h3 | h4
      · exact headers_ne h3
      · exact hFB h4
  rw [hsplit, pyIndex_append_cons _ _ _ hnm]
  simp; omega

/-- Interior extraction on a split ignore list (body of claim C6). -/
theorem getIgnoreSelective_split_eq (A B C : List String)
    (hA : headerSelectStart ∉ A)
    (hFA : headerSelectFinish ∉ A) (hFB : headerSelectFinish ∉ B) :
    getIgnoreSelective (A ++ headerSelectStart :: (B ++ headerSelectFinish :: C)) = B := by
  have hmemS : headerSelectStart ∈ A ++ headerSelectStart :: (B ++ headerSelectFinish :: C) := by
    simp
  have hmemF : headerSelectFinish ∈ A ++ headerSelectStart :: (B ++ headerSelectFinish :: C) := by
    simp
  rw [getIgnoreSelective, if_neg]
  · rw [pyIndex_start_split A B C hA, pyIndex_finish_split A B C hFA hFB]
    have hdrop : (A ++ headerSelectStart :: (B ++ headerSelectFinish :: C)).drop (A.length + 1)
        = B ++ headerSelectFinish :: C := by
      have h1 : A ++ headerSelectStart :: (B ++ headerSelectFinish :: C)
          = (A ++ [headerSelectStart]) ++ (B ++ headerSelectFinish :: C) := by simp
      have h2 : A.length + 1 = (A ++ [headerSelectStart]).length := by simp
      rw [h1, h2, drop_length_append]
    rw [hdrop]
    have h3 : A.length + B.length + 1 - (A.length + 1) = B.length := by omega
    rw [h3]
    simp
  · intro hcontra
    rcases hcontra with h1 | h2
    · exact (List.count_eq_zero.mp h1) hmemS
    · exact (List.count_eq_zero.mp h2) hmemF

/-- Reading the selective block of a list missing a sentinel yields `[]`. -/
theorem getIgnoreSelective_absent (l : List String)
    (h : headerSelectStart ∉ l ∨ headerSelectFinish ∉ l) :
    getIgnoreSelective l = [] := by
  rw [getIgnoreSelective, if_pos]
  rcases h with h1 | h2
  · exact Or.inl (List.count_eq_zero.mpr h1)
  · exact Or.inr (List.count_eq_zero.mpr h2)

/-- Full computation of `setIgnoreSelective` on a split ignore list:
the prefix through the start sentinel and the suffix from the finish
sentinel survive, the interior `B` is replaced by the normalized `il`. -/
theorem setIgnoreSelective_split_eq (A B C il : List String)
    (hA : headerSelectStart ∉ A)
    (hFA : headerSelectFinish ∉ A) (hFB : headerSelectFinish ∉ B) :
    setIgnoreSelective (A ++ headerSelectStart :: (B ++ headerSelectFinish :: C)) il
      = some (normalizeIl il,
          (A ++ [headerSelectStart]) ++ normalizeIl il ++ (headerSelectFinish :: C)) := by
  have hmemS : headerSelectStart ∈ A ++ headerSelectStart :: (B ++ headerSelectFinish :: C) := by
    simp
  have hmemF : headerSelectFinish ∈ A ++ headerSelectStart :: (B ++ headerSelectFinish :: C) := by
    simp
  rw [setIgnoreSelective, if_pos hmemS, if_pos hmemF]
  rw [pyIndex_start_split A B C hA, pyIndex_finish_split A B C hFA hFB]
  have htake : (A ++ headerSelectStart :: (B ++ headerSelectFinish :: C)).take (A.length + 1)
      = A ++ [headerSelectStart] := take_length_succ A _ _
  have hdrop : (A ++ headerSelectStart :: (B ++ headerSelectFinish :: C)).drop
      (A.length + B.length + 1) = headerSelectFinish :: C := by
    have h1 : A ++ headerSelectStart :: (B ++ headerSelectFinish :: C)
        = (A ++ headerSelectStart :: B) ++ (headerSelectFinish :: C) := by simp
    have h2 : A.length + B.length + 1 = (A ++ headerSelectStart :: B).length := by simp; omega
    rw [h1, h2, drop_length_append]
  rw [htake, hdrop]

/-! ### Claim theorems for the ignore-list codec -/

/-- C6: for an ignore list containing the start sentinel (first occurrence
after prefix `A`) and the finish sentinel (first occurrence after interior
`B`), `getIgnoreSelective` returns exactly the interior lines `B` strictly
between the sentinels; and on any list missing either sentinel it returns
the empty list. -/
theorem getIgnoreSelective_spec (A B C l : List String)
    (hA : headerSelectStart ∉ A)
    (hFA : headerSelectFinish ∉ A) (hFB : headerSelectFinish ∉ B)
    (habs : headerSelectStart ∉ l ∨ headerSelectFinish ∉ l) :
    getIgnoreSelective (A ++ headerSelectStart :: (B ++ headerSelectFinish :: C)) = B ∧
    getIgnoreSelective l = [] :=
  ⟨getIgnoreSelective_split_eq A B C hA hFA hFB, getIgnoreSelective_absent l habs⟩

theorem getIgnoreSelective_spec_witness :
    getIgnoreSelective (["x"] ++ headerSelectStart :: (["!/a"] ++ headerSelectFinish :: ["y"]))
      = ["!/a"] ∧
    getIgnoreSelective ["z"] = [] :=
  getIgnoreSelective_spec ["x"] ["!/a"] ["y"] ["z"]
    (by decide) (by decide) (by decide) (Or.inl (by decide))

/-- C8: on an ignore list that contains both sentinels (start sentinel
first), the list POSTed by `setIgnoreSelective` keeps every line up to and
including the start sentinel (`A ++ [headerSelectStart]`) and every line
from the finish sentinel to the end (`headerSelectFinish :: C`) unchanged;
only the interior `B` is replaced (by the normalized `il`). -/
theorem setIgnoreSelective_frame (A B C il : List String)
    (hA : headerSelectStart ∉ A)
    (hFA : headerSelectFinish ∉ A) (hFB : headerSelectFinish ∉ B) :
    setIgnoreSelective (A ++ headerSelectStart :: (B ++ headerSelectFinish :: C)) il
      = some (normalizeIl il,
          (A ++ [headerSelectStart]) ++ normalizeIl il ++ (headerSelectFinish :: C)) :=
  setIgnoreSelective_split_eq A B C il hA hFA hFB

theorem setIgnoreSelective_frame_witness :
    setIgnoreSelective (["g"] ++ headerSelectStart :: (["old"] ++ headerSelectFinish :: ["t"]))
        ["!/n"]
      = some (normalizeIl ["!/n"],
          (["g"] ++ [headerSelectStart]) ++ normalizeIl ["!/n"] ++ (headerSelectFinish :: ["t"])) :=
  setIgnoreSelective_frame ["g"] ["old"] ["t"] ["!/n"] (by decide) (by decide) (by decide)

/-! ### The `getIgnoreList` cache and the round-trip claim

`getIgnoreList` is decorated `@lru_cache(maxsize=100)` (source line 123):
the first fetch for a folder id memoizes the remote ignore list, and every
later call with the same folder id is a cache hit until `clearCache`
(source lines 211-213) invalidates it.  `setIgnoreSelective` itself calls
`getIgnoreList` - populating the cache with the pre-write list - and the
POST does not invalidate the cache.  The state of one folder id is the
remote ignore list together with the memoized entry.  (Eviction at 100
entries cannot affect a single key and is not modelled.) -/

structure IgnoreState where
  remote : List String
  cached : Option (List String)

/-- `getIgnoreList(fid)` under its `lru_cache`: a hit returns the
memoized list unchanged, a miss fetches the remote list and memoizes
it. -/
def getIgnoreListCached (st : IgnoreState) : List String × IgnoreState :=
  match st.cached with
  | some l => (l, st)
  | none => (st.remote, { remote := st.remote, cached := some st.remote })

/-- `getIgnoreSelective(fid)` as an operation on the folder state: the
codec applied to whatever `getIgnoreList` returns (cached or fresh). -/
def getIgnoreSelectiveOp (st : IgnoreState) : List String × IgnoreState :=
  (getIgnoreSelective (getIgnoreListCached st).1, (getIgnoreListCached st).2)

/-- `setIgnoreSelective(fid, il)` as an operation on the folder state:
splice against the (possibly cached) fetched list and POST the send list,
which becomes the new remote ignore list; the cache entry is left in
place.  `none` models the `ValueError` of a missing sentinel. -/
def setIgnoreSelectiveOp (st : IgnoreState) (il : List String) :
    Option (List String × IgnoreState) :=
  match setIgnoreSelective (getIgnoreListCached st).1 il with
  | some (il2, sendlist) =>
    some (il2, { remote := sendlist, cached := (getIgnoreListCached st).2.cached })
  | none => none

/-- `clearCache` (source lines 211-213) on the folder state. -/
def clearCache (st : IgnoreState) : IgnoreState :=
  { remote := st.remote, cached := none }

/-- C1 counterexample: on a fresh folder state with remote ignore list
`[start, "b", finish]`, calling `setIgnoreSelective` with `["!/a"]` and
then `getIgnoreSelective` returns the pre-write interior `["b"]`, not the
normalized written list `["!/a", "\n"]`: the write memoized the pre-write
list, and the read is a cache hit on it.  The set-then-get round trip as
claimed is false in the program. -/
theorem setIgnoreSelective_roundTrip_cached_cex :
    (setIgnoreSelectiveOp
        ⟨[headerSelectStart, "b", headerSelectFinish], none⟩ ["!/a"]).map
        (fun p => (getIgnoreSelectiveOp p.2).1)
      = some ["b"] ∧
    (["b"] : List String) ≠ normalizeIl ["!/a"] := by
  refine ⟨by decide, by decide⟩

/-- C1 amended: writing a selective list and reading it back yields the
written list up to the trailing blank-line normalization only once the
memoized `getIgnoreList` entry is invalidated: starting from a fresh
cache and a remote list containing both sentinels (start sentinel first),
with written pattern lines not containing the finish sentinel line, the
write succeeds with the mutated list `normalizeIl il`, a read after
`clearCache` returns `normalizeIl il`, and a read without `clearCache`
is a cache hit returning the pre-write interior `B`. -/
theorem setIgnoreSelective_roundTrip (A B C il : List String)
    (hA : headerSelectStart ∉ A)
    (hFA : headerSelectFinish ∉ A) (hFB : headerSelectFinish ∉ B)
    (hil : headerSelectFinish ∉ il) :
    ∃ st1,
      setIgnoreSelectiveOp
          ⟨A ++ headerSelectStart :: (B ++ headerSelectFinish :: C), none⟩ il
        = some (normalizeIl il, st1) ∧
      (getIgnoreSelectiveOp (clearCache st1)).1 = normalizeIl il ∧
      (getIgnoreSelectiveOp st1).1 = B := by
  refine ⟨⟨(A ++ [headerSelectStart]) ++ normalizeIl il ++ (headerSelectFinish :: C),
      some (A ++ headerSelectStart :: (B ++ headerSelectFinish :: C))⟩, ?_, ?_, ?_⟩
  · have hset := setIgnoreSelective_split_eq A B C il hA hFA hFB
    simp [setIgnoreSelectiveOp, getIgnoreListCached, hset]
  · have h1 : (A ++ [headerSelectStart]) ++ normalizeIl il ++ (headerSelectFinish :: C)
        = A ++ headerSelectStart :: (normalizeIl il ++ headerSelectFinish :: C) := by simp
    simp only [getIgnoreSelectiveOp, getIgnoreListCached, clearCache, h1]
    exact getIgnoreSelective_split_eq A (normalizeIl il) C hA hFA
      (finish_not_mem_normalizeIl il hil)
  · simp only [getIgnoreSelectiveOp, getIgnoreListCached]
    exact getIgnoreSelective_split_eq A B C hA hFA hFB

theorem setIgnoreSelective_roundTrip_witness :
    ∃ st1,
      setIgnoreSelectiveOp
          ⟨[] ++ headerSelectStart :: (["b"] ++ headerSelectFinish :: []), none⟩ ["!/a"]
        = some (normalizeIl ["!/a"], st1) ∧
      (getIgnoreSelectiveOp (clearCache st1)).1 = normalizeIl ["!/a"] ∧
      (getIgnoreSelectiveOp st1).1 = ["b"] :=
  setIgnoreSelective_roundTrip [] ["b"] [] ["!/a"]
    (by decide) (by decide) (by decide) (by decide)

/-- C7: when the fetched ignore list is missing a sentinel line,
`setIgnoreSelective` raises (`l.index` raises `ValueError`), and the model
returns `none`: no send list is produced, so no POST is issued and the
remote ignore list is unchanged (the Python exception occurs at lines
143-144, before the POST at line 152 and before the mutation of `il`). -/
theorem setIgnoreSelective_missing_sentinel (l il : List String)
    (h : headerSelectStart ∉ l ∨ headerSelectFinish ∉ l) :
    setIgnoreSelective l il = none := by
  rw [setIgnoreSelective]
  rcases h with h1 | h2
  · rw [if_neg h1]
  · by_cases hs : headerSelectStart ∈ l
    · rw [if_pos hs, if_neg h2]
    · rw [if_neg hs]

theorem setIgnoreSelective_missing_sentinel_witness :
    setIgnoreSelective ["a"] ["b"] = none :=
  setIgnoreSelective_missing_sentinel ["a"] ["b"] (Or.inl (by decide))

/-- C10: on the success path `setIgnoreSelective` mutates the caller's
list `il` in place to `normalizeIl il` (the first component of the
result): when `il` has more than one element and its last element strips
to blank, that element is replaced by `"\n"`, otherwise `"\n"` is
appended; in both cases the caller's list ends with a `"\n"` line. -/
theorem setIgnoreSelective_mutation (l il : List String)
    (hs : headerSelectStart ∈ l) (hf : headerSelectFinish ∈ l) :
    (∃ sent, setIgnoreSelective l il = some (normalizeIl il, sent)) ∧
    (1 < il.length ∧ pyStrip (il.getLastD "") = "" →
      normalizeIl il = il.dropLast ++ ["\n"]) ∧
    (¬(1 < il.length ∧ pyStrip (il.getLastD "") = "") →
      normalizeIl il = il ++ ["\n"]) ∧
    (normalizeIl il).getLast? = some "\n" := by
  refine ⟨⟨_, by rw [setIgnoreSelective, if_pos hs, if_pos hf]⟩, ?_, ?_, ?_⟩
  · intro h; rw [normalizeIl, if_pos h]
  · intro h; rw [normalizeIl, if_neg h]
  · rw [normalizeIl]; split <;> simp

theorem setIgnoreSelective_mutation_witness :
    (∃ sent, setIgnoreSelective [headerSelectStart, headerSelectFinish] ["p", " "]
        = some (normalizeIl ["p", " "], sent)) ∧
    (1 < (["p", " "] : List String).length ∧ pyStrip ((["p", " "] : List String).getLastD "") = "" →
      normalizeIl ["p", " "] = (["p", " "] : List String).dropLast ++ ["\n"]) ∧
    (¬(1 < (["p", " "] : List String).length ∧
        pyStrip ((["p", " "] : List String).getLastD "") = "") →
      normalizeIl ["p", " "] = ["p", " "] ++ ["\n"]) ∧
    (normalizeIl ["p", " "]).getLast? = some "\n" :=
  setIgnoreSelective_mutation [headerSelectStart, headerSelectFinish] ["p", " "]
    (by decide) (by decide)

/-! ## HTTP request handling

`_getRequest` (source lines 65-86) maps the HTTP status code of the GET
response to a parsed JSON body (200), an empty dict (404), or a raised
`requests.RequestException` (403, 500, anything else).  `_postRequest`
(lines 88-90) sends the POST and never inspects the response at all.
JSON values are modelled by the inductive `Json`; a raised Python
exception is modelled by `Except.error`. -/

inductive Json where
  | null
  | bool (b : Bool)
  | num (n : Int)
  | str (s : String)
  | arr (elems : List Json)
  | obj (fields : List (String × Json))

/-- Python exceptions surfaced by the embedded methods. -/
inductive PyErr where
  | requestError (msg : String)
  | keyError (key : String)
  | typeError (msg : String)
deriving DecidableEq

/-- `d[key]` on a parsed JSON value: `KeyError` when the key is absent,
`TypeError` when the value is not a dict. -/
def jGet (j : Json) (key : String) : Except PyErr Json :=
  match j with
  | .obj fields =>
    match fields.lookup key with
    | some v => .ok v
    | none => .error (.keyError key)
  | _ => .error (.typeError "not subscriptable")

/-- Python `j is None` for a parsed JSON value. -/
def jIsNull : Json → Bool
  | .null => true
  | _ => false

/-- `_getRequest` (source lines 65-86) as a function of the response
status code and the parsed response body.  (The check for a generator
response and the exact formatted message strings of the 500 and
wrong-status branches are not modelled.) -/
def getRequest (status : Nat) (body : Json) : Except PyErr Json :=
  if status = 200 then .ok body
  else if status = 403 then .error (.requestError "Forbidden, api token can be wrong")
  else if status = 404 then .ok (.obj [])
  else if status = 500 then .error (.requestError "Internal Server Error")
  else .error (.requestError "Wrong status code")

/-- `_postRequest` (source lines 88-90): the response status is never
inspected and no exception is raised for any HTTP status, so the model
ignores both arguments. -/
def postRequest (_status : Nat) (_payload : Json) : Except PyErr Unit :=
  .ok ()

/-- `getIgnoreList` (source lines 123-129): fetch `db/ignores`, subscript
the body with `['ignore']`, and replace a JSON `null` by `[]`. -/
def getIgnoreList (status : Nat) (body : Json) : Except PyErr Json := do
  let j ← getRequest status body
  let rv ← jGet j "ignore"
  if jIsNull rv then pure (.arr []) else pure rv

/-- `getFolderIter` (source lines 110-111): fetch `stats/folder` and
return its keys. -/
def getFolderIter (status : Nat) (body : Json) : Except PyErr (List String) := do
  let j ← getRequest status body
  match j with
  | .obj fields => pure (fields.map Prod.fst)
  | _ => .error (.typeError "keys requires a dict")

/-- `getVersion` (source lines 200-205): fetch `svc/report` and subscript
the body with `['version']` (the `api_version` side effect is dropped). -/
def getVersion (status : Nat) (body : Json) : Except PyErr Json := do
  let j ← getRequest status body
  jGet j "version"

/-- Python `f['id'] == k` where `k` is a string: true exactly on an equal
JSON string. -/
def jEqStr (j : Json) (s : String) : Bool :=
  match j with
  | .str t => t == s
  | _ => false

/-- Python `d[k] = v` on a dict: replace the first binding of `k` or
append a new one. -/
def setKey : List (String × Json) → String → Json → List (String × Json)
  | [], k, v => [(k, v)]
  | (k', v') :: rest, k, v =>
    if k' = k then (k, v) :: rest else (k', v') :: setKey rest k v

/-- Python `j[k] = v`: `TypeError` unless `j` is a dict. -/
def jSet (j : Json) (k : String) (v : Json) : Except PyErr Json :=
  match j with
  | .obj fields => .ok (.obj (setKey fields k v))
  | _ => .error (.typeError "item assignment requires a dict")

/-- Python `for f in folders` over a parsed JSON value: only a JSON list
iterates over elements (iterating a dict, which yields keys, does not
occur with the `system/config` payload and is not modelled). -/
def jAsList : Json → Except PyErr (List Json)
  | .arr xs => .ok xs
  | _ => .error (.typeError "iteration requires a list")

/-- Inner loop of `getFoldersDict` (source lines 116-120): scan every `f`
in `cfgd['folders']` and, when `f['id'] == k`, set `label` and `path` on
the folder entry, in the evaluation order of the Python statements. -/
def mergeFolder (k : String) (folders : List Json) (entry : Json) : Except PyErr Json :=
  match folders with
  | [] => .ok entry
  | f :: rest => do
    let fid ← jGet f "id"
    if jEqStr fid k then
      let lab ← jGet f "label"
      let e1 ← jSet entry "label" lab
      let pth ← jGet f "path"
      let e2 ← jSet e1 "path" pth
      mergeFolder k rest e2
    else
      mergeFolder k rest entry

/-- `getFoldersDict` (source lines 113-121) as a function of the
`stats/folder` response `(s1, b1)` and the `system/config` response
`(s2, b2)`.  `cfgd['folders']` is only evaluated when the outer loop over
`dicts.keys()` runs at least once. -/
def getFoldersDict (s1 : Nat) (b1 : Json) (s2 : Nat) (b2 : Json) : Except PyErr Json := do
  let dicts ← getRequest s1 b1
  let cfgd ← getRequest s2 b2
  match dicts with
  | .obj [] => pure (.obj [])
  | .obj entries => do
    let foldersJ ← jGet cfgd "folders"
    let folders ← jAsList foldersJ
    let merged ← entries.mapM (fun kv => do
      let v2 ← mergeFolder kv.1 folders kv.2
      pure (kv.1, v2))
    pure (.obj merged)
  | _ => .error (.typeError "keys requires a dict")

/-! ### Claim theorems for HTTP status handling -/

/-- C2 counterexample: on a 404 response `getIgnoreList` does raise: the
`['ignore']` subscript of the empty dict returned by `_getRequest` raises
`KeyError`, and likewise `getVersion` with `['version']`.  The claim that
every public query built on `_getRequest` yields an empty structure
without raising on 404 is therefore false. -/
theorem getIgnoreList_404_raises :
    getIgnoreList 404 (Json.obj []) = .error (.keyError "ignore") ∧
    getVersion 404 (Json.obj []) = .error (.keyError "version") := by
  constructor <;> rfl

/-- C2 amended: a 404 response makes `_getRequest` itself return an empty
dict without raising, and key-free consumers such as `getFolderIter` and
`getFoldersDict` (whose loop body never runs on an empty stats dict)
yield empty structures; but the public queries that subscript the body -
`getIgnoreList` and `getVersion` - raise a `KeyError` on the empty dict. -/
theorem getRequest_404_spec : ∀ (b cfg : Json),
    getRequest 404 b = .ok (.obj []) ∧
    getFolderIter 404 b = .ok [] ∧
    getFoldersDict 404 b 200 cfg = .ok (.obj []) ∧
    getIgnoreList 404 b = .error (.keyError "ignore") ∧
    getVersion 404 b = .error (.keyError "version") := by
  intro b cfg
  refine ⟨rfl, rfl, rfl, rfl, rfl⟩

/-- C3 counterexample: `_postRequest` never raises, whatever the response
status; in particular a POST answered with HTTP 403 raises nothing, so
the claim that a 403 always raises an authentication error on every
endpoint (GET and POST alike) is false. -/
theorem postRequest_403_no_raise :
    postRequest 403 (Json.obj []) = .ok () := rfl

/-- C3 amended: a 403 response to a GET raises the authentication error
in `_getRequest`, but `_postRequest` ignores the response status
entirely, so a 403 on a POST endpoint raises nothing. -/
theorem getRequest_403_spec : ∀ (b d : Json),
    getRequest 403 b = .error (.requestError "Forbidden, api token can be wrong") ∧
    postRequest 403 d = .ok () := by
  intro b d
  exact ⟨rfl, rfl⟩

/-! ## Version parsing and browse-tree normalization

`verStr2Num` (source lines 207-209) parses `"v<a>.<b>.<c>"` into
`(a*100 + b)*100 + c`; `_refineBrowseFolderRequest` (lines 92-108)
reshapes the `db/browse` payload: from API version 1.14.0 on the payload
is already a list of node objects and is returned unchanged, before that
it is a nested mapping of maps which is converted recursively. -/

/-- Python `s.replace(c, "")` for a one-character pattern: remove every
occurrence of the character. -/
def removeChar (c : Char) (s : String) : String :=
  ⟨s.data.filter (fun x => x ≠ c)⟩

/-- Python `s.split(".")`: split at every dot, keeping empty pieces
(`"".split(".") == [""]`). -/
def splitDots : List Char → List (List Char)
  | [] => [[]]
  | c :: rest =>
    if c = '.' then [] :: splitDots rest
    else
      match splitDots rest with
      | chunk :: more => (c :: chunk) :: more
      | [] => [[c]]

/-- Python `int(s)` on a nonnegative decimal numeral (the sign, space and
underscore forms accepted by Python do not occur in version strings and
are not modelled); `none` models the raised `ValueError`. -/
def pyInt (cs : List Char) : Option Nat :=
  if cs ≠ [] ∧ cs.all (fun c => c.isDigit) then
    some (cs.foldl (fun n c => n * 10 + (c.toNat - 48)) 0)
  else none

/-- `verStr2Num` (source lines 207-209): drop the `v`, split on dots,
and combine the first three components; `none` models the `IndexError`
or `ValueError` raised on a malformed version string. -/
def verStr2Num (s : String) : Option Nat :=
  let l := splitDots (removeChar 'v' s).data
  match l[0]?, l[1]?, l[2]? with
  | some a, some b, some c =>
    match pyInt a, pyInt b, pyInt c with
    | some x, some y, some z => some ((x * 100 + y) * 100 + z)
    | _, _, _ => none
  | _, _, _ => none

theorem verStr2Num_threshold : verStr2Num "1.14.0" = some 11400 := by decide

/-- A normalized browse node: the refined dict
`{'name': ..., 'type': 'FILE_INFO_TYPE_FILE'}` or
`{'name': ..., 'type': 'FILE_INFO_TYPE_DIRECTORY', 'children': [...]}`
built by `_refineBrowseFolderRequest` (lines 104 and 107), which is also
the shape served directly by API versions from 1.14.0 on. -/
inductive Node where
  | file (name : String)
  | dir (name : String) (children : List Node)

/-- A value of the pre-1.14.0 nested mapping payload: a sub-mapping for a
directory, or any non-dict JSON value for a file (the code tests only
`isinstance(d[key], dict)` and discards non-dict values, line 107). -/
inductive BrowseVal where
  | leaf
  | dict (entries : List (String × BrowseVal))

/-- The `db/browse` payload handed to `_refineBrowseFolderRequest`:
a nested mapping (servers before 1.14.0) or a list of node objects
(servers from 1.14.0 on). -/
inductive BrowsePayload where
  | nested (entries : List (String × BrowseVal))
  | listed (nodes : List Node)

/-- The recursive dict-to-list conversion of `_refineBrowseFolderRequest`
(source lines 102-108): each dict value becomes a directory node holding
the converted sub-mapping, each non-dict value a file node, in mapping
iteration order. -/
def refineNested : List (String × BrowseVal) → List Node
  | [] => []
  | (k, .leaf) :: rest => .file k :: refineNested rest
  | (k, .dict sub) :: rest => .dir k (refineNested sub) :: refineNested rest

/-- `_refineBrowseFolderRequest` (source lines 92-108): at or above the
1.14.0 threshold the payload is returned unchanged; below it the nested
mapping is converted.  (`none` models the pre-threshold branch iterating
a list payload as a mapping, which raises; pre-threshold servers return
mappings.) -/
def refineBrowseFolderRequest (api_version : Nat) (d : BrowsePayload) : Option BrowsePayload :=
  if (verStr2Num "1.14.0").getD 0 ≤ api_version then some d
  else
    match d with
    | .nested entries => some (.listed (refineNested entries))
    | .listed _ => none

mutual

/-- Encode a normalized node back into the pre-1.14.0 mapping shape
(the decoding direction of the format-stability property of C4). -/
def nodeToEntry : Node → String × BrowseVal
  | .file n => (n, .leaf)
  | .dir n cs => (n, .dict (nodesToEntries cs))

/-- Encode a list of normalized nodes as a pre-1.14.0 nested mapping. -/
def nodesToEntries : List Node → List (String × BrowseVal)
  | [] => []
  | n :: ns => nodeToEntry n :: nodesToEntries ns

end

/-- Converting the nested encoding of a node list yields the node list
back: the two payload shapes describe the same trees. -/
theorem refineNested_nodesToEntries : ∀ t : List Node, refineNested (nodesToEntries t) = t
  | [] => by simp [nodesToEntries, refineNested]
  | Node.file n :: ns => by
    simp [nodesToEntries, nodeToEntry, refineNested, refineNested_nodesToEntries ns]
  | Node.dir n cs :: ns => by
    simp [nodesToEntries, nodeToEntry, refineNested,
      refineNested_nodesToEntries cs, refineNested_nodesToEntries ns]

/-- C4: at or above the 1.14.0 threshold `_refineBrowseFolderRequest`
returns its input payload unchanged; below the threshold it converts the
nested mapping-of-maps into the list of node objects; and a pre-threshold
nested-map input and a post-threshold list input describing the same tree
`t` produce equal normalized output. -/
theorem refineBrowseFolderRequest_spec (vlo vhi : Nat) (d : BrowsePayload) (t : List Node)
    (hlo : vlo < (verStr2Num "1.14.0").getD 0)
    (hhi : (verStr2Num "1.14.0").getD 0 ≤ vhi) :
    refineBrowseFolderRequest vhi d = some d ∧
    refineBrowseFolderRequest vlo (BrowsePayload.nested (nodesToEntries t))
      = some (BrowsePayload.listed t) ∧
    refineBrowseFolderRequest vlo (BrowsePayload.nested (nodesToEntries t))
      = refineBrowseFolderRequest vhi (BrowsePayload.listed t) := by
  have h1 : refineBrowseFolderRequest vhi d = some d := by
    unfold refineBrowseFolderRequest
    rw [if_pos hhi]
  have h2 : refineBrowseFolderRequest vlo (BrowsePayload.nested (nodesToEntries t))
      = some (BrowsePayload.listed t) := by
    unfold refineBrowseFolderRequest
    rw [if_neg (Nat.not_le.mpr hlo)]
    show some (BrowsePayload.listed (refineNested (nodesToEntries t)))
      = some (BrowsePayload.listed t)
    rw [refineNested_nodesToEntries t]
  have h3 : refineBrowseFolderRequest vhi (BrowsePayload.listed t)
      = some (BrowsePayload.listed t) := by
    unfold refineBrowseFolderRequest
    rw [if_pos hhi]
  exact ⟨h1, h2, h2.trans h3.symm⟩

theorem refineBrowseFolderRequest_spec_witness :
    refineBrowseFolderRequest 11400 (BrowsePayload.listed [Node.file "g"])
      = some (BrowsePayload.listed [Node.file "g"]) ∧
    refineBrowseFolderRequest 11309
        (BrowsePayload.nested (nodesToEntries [Node.dir "d" [Node.file "f"]]))
      = some (BrowsePayload.listed [Node.dir "d" [Node.file "f"]]) ∧
    refineBrowseFolderRequest 11309
        (BrowsePayload.nested (nodesToEntries [Node.dir "d" [Node.file "f"]]))
      = refineBrowseFolderRequest 11400
          (BrowsePayload.listed [Node.dir "d" [Node.file "f"]]) :=
  refineBrowseFolderRequest_spec 11309 11400 (BrowsePayload.listed [Node.file "g"])
    [Node.dir "d" [Node.file "f"]] (by decide) (by decide)

/-! ## Recursive size aggregation (`extendDirSizes`, source lines 293-320)

The items come from the browse tree; the embedding keeps the four dict
keys the function reads: `type`, `syncstate`, `size`, `children`, each
`Option` because the Python code tests key presence.  `iprop.Type` and
`iprop.SyncState` live in `ItemProperty.py`; their members are taken from
the source's usage (`FILE_INFO_TYPE_DIRECTORY`, `FILE_INFO_TYPE_FILE`,
and the sync states of lines 215-291).  Every non-`DIRECTORY` type member
behaves alike in `extendDirSizes`.  The member written `partial` in the
source is called `partSynced` here (`partial` is a Lean keyword). -/

inductive ItemType where
  | DIRECTORY
  | FILE
deriving DecidableEq

inductive SyncState where
  | syncing
  | ignored
  | partSynced
  | globalignore
  | newlocal
  | unknown
deriving DecidableEq

/-- A browse-tree item as read by `extendDirSizes`: the `type`,
`syncstate`, `size` and `children` keys, each possibly absent.  (An
`extSize` key never pre-exists on input items: it is only ever written by
`extendDirSizes` itself.) -/
inductive Item where
  | mk (type : Option ItemType) (syncstate : Option SyncState)
       (size : Option Int) (children : Option (List Item))

def Item.typeKey : Item → Option ItemType
  | .mk t _ _ _ => t

def Item.childrenKey : Item → Option (List Item)
  | .mk _ _ _ ch => ch

/-- The dict `{"value": ..., "completed": ...}` returned by
`extendDirSizes` (source line 320). -/
structure SizeAcc where
  value : Int
  completed : Bool
deriving DecidableEq

/-- The `for item in l` loop of `extendDirSizes` (source lines 298-319)
with its two accumulators.  Per item: a missing `type` key marks
incompleteness; a directory marked `newlocal` is skipped entirely; a
directory first gets `item['size'] = 0`, then its children (when present)
are aggregated recursively into `extSize` - so the directory contributes
`extSize['value']` and its `completed` flag - while a directory without
`children` marks incompleteness and contributes its cleared size `0`;
any other item contributes its `size` when present and otherwise marks
incompleteness. -/
def extendLoop (size : Int) (completed : Bool) : List Item → SizeAcc
  | [] => ⟨size, completed⟩
  | Item.mk none _ _ _ :: rest =>
    extendLoop size false rest
  | Item.mk (some ItemType.DIRECTORY) ss _ ch :: rest =>
    if ss = some SyncState.newlocal then
      extendLoop size completed rest
    else
      match ch with
      | some cs =>
        extendLoop (size + (extendLoop 0 true cs).value)
          (completed && (extendLoop 0 true cs).completed) rest
      | none =>
        extendLoop (size + 0) false rest
  | Item.mk (some _) _ sz _ :: rest =>
    match sz with
    | some s => extendLoop (size + s) completed rest
    | none => extendLoop size false rest

/-- `extendDirSizes` (source lines 293-320): run the loop with the
initial accumulators `size = 0`, `completed = True`. -/
def extendDirSizes (l : List Item) : SizeAcc :=
  extendLoop 0 true l

/-- The completeness predicate that `extendDirSizes` actually computes:
every item has a `type` key, directories either carry the `newlocal`
sync state (and are skipped) or have a `children` key whose items are all
recursively resolved, and non-directories have a `size` key. -/
def allResolved : List Item → Bool
  | [] => true
  | Item.mk none _ _ _ :: _ => false
  | Item.mk (some ItemType.DIRECTORY) ss _ ch :: rest =>
    (if ss = some SyncState.newlocal then true
     else
       match ch with
       | some cs => allResolved cs
       | none => false) && allResolved rest
  | Item.mk (some _) _ sz _ :: rest => sz.isSome && allResolved rest

theorem extendLoop_completed : ∀ (l : List Item) (s : Int) (c : Bool),
    (extendLoop s c l).completed = (c && allResolved l)
  | [], s, c => by
    rw [extendLoop.eq_def, allResolved.eq_def]; simp
  | Item.mk none ss sz ch :: rest, s, c => by
    rw [extendLoop.eq_def, allResolved.eq_def]
    simp [extendLoop_completed rest s false]
  | Item.mk (some ItemType.DIRECTORY) ss sz ch :: rest, s, c => by
    rw [extendLoop.eq_def, allResolved.eq_def]
    by_cases hss : ss = some SyncState.newlocal
    · simp [hss, extendLoop_completed rest s c]
    · match ch with
      | some cs =>
        simp only [hss, if_neg hss, if_false, eq_self_iff_true]
        have hcs := extendLoop_completed cs 0 true
        have hrest := extendLoop_completed rest
          (s + (extendLoop 0 true cs).value) (c && (extendLoop 0 true cs).completed)
        rw [hrest, hcs]
        simp [Bool.and_assoc]
      | none =>
        have hrest := extendLoop_completed rest s false
        simp only [hss, if_neg hss, if_false, add_zero]
        rw [hrest]
        simp
  | Item.mk (some ItemType.FILE) ss sz ch :: rest, s, c => by
    rw [extendLoop.eq_def, allResolved.eq_def]
    match sz with
    | some v => simp [extendLoop_completed rest (s + v) c, Bool.and_assoc]
    | none => simp [extendLoop_completed rest s false]
termination_by l s c => sizeOf l

/-- C5 counterexample: a single directory item carrying the `newlocal`
sync state and no `children` key is skipped by the loop (source line
304-305), so `extendDirSizes` reports `completed = True` even though this
directory descendant lacks children data - the claim that the flag is
false whenever a directory descendant lacks children data is violated. -/
theorem extendDirSizes_newlocal_cex :
    extendDirSizes [Item.mk (some ItemType.DIRECTORY) (some SyncState.newlocal) none none]
      = { value := 0, completed := true } ∧
    (Item.mk (some ItemType.DIRECTORY) (some SyncState.newlocal) none none).typeKey
      = some ItemType.DIRECTORY ∧
    (Item.mk (some ItemType.DIRECTORY) (some SyncState.newlocal) none none).childrenKey
      = none := by
  refine ⟨?_, rfl, rfl⟩
  simp [extendDirSizes, extendLoop.eq_def]

/-- C5 amended: the `completed` flag of `extendDirSizes` is true iff every
traversed descendant is fully resolved, where directory items carrying the
`newlocal` sync state are skipped (neither they nor their contents are
inspected): outside skipped items, a missing `type` key, a missing `size`
key on a non-directory, or a missing `children` key on a directory makes
the flag false, and a parent directory's completeness is the conjunction
of its own children-data presence with its children's completeness. -/
theorem extendDirSizes_completed (l : List Item) :
    (extendDirSizes l).completed = allResolved l := by
  have h := extendLoop_completed l 0 true
  simpa [extendDirSizes] using h

/-! ## Ignored/partial flags of `getFileInfoExtended` (source lines 167-194)

For a directory node with relative path `fn`, the method first sets
`ignored`/`ispartial` from membership of `"!/" + fn` and
`"/" + fn + "/**"` in the ignore-selective sub-list, then scans the
sub-list: a pattern starting with `"!/" + fn + "/"` forces
`ignored = False, ispartial = True` and stops the scan; a parent pattern
`ign` with `ign + "/"` a prefix of `"!/" + fn + "/"` and
`ign[1:] + "/**"` absent from the sub-list forces
`ignored = False, ispartial = False` and the scan continues.  The
embedding computes the final `(ignored, ispartial)` pair from `fn` and
the ignore-selective sub-list. -/

/-- Python `s.startswith(p)`. -/
def strStartsWith (s p : String) : Bool :=
  p.data.isPrefixOf s.data

/-- Python `s[1:]`. -/
def strDrop1 (s : String) : String :=
  ⟨s.data.drop 1⟩

/-- The `for ign in self._ignoreSelectiveList` loop of source lines
182-192, carrying the current `(ignored, ispartial)` pair; `all` is the
full sub-list used by the inner membership test of line 189. -/
def getFileInfoLoop (fn : String) (all : List String) :
    List String → Bool → Bool → Bool × Bool
  | [], ignored, isPart => (ignored, isPart)
  | ign :: rest, ignored, isPart =>
    if strStartsWith ign ("!/" ++ fn ++ "/") then (false, true)
    else if strStartsWith ("!/" ++ fn ++ "/") (ign ++ "/")
        && !(all.contains (strDrop1 ign ++ "/**")) then
      getFileInfoLoop fn all rest false false
    else getFileInfoLoop fn all rest ignored isPart

/-- The `(ignored, ispartial)` pair computed by `getFileInfoExtended`
(source lines 171-193) for a directory node with path `fn` against the
ignore-selective sub-list `sel`: initialization from membership of
`"!/" + fn` (lines 172-180), then the pattern scan. -/
def getFileInfoExtendedFlags (fn : String) (sel : List String) : Bool × Bool :=
  if sel.contains ("!/" ++ fn) then
    getFileInfoLoop fn sel sel false (sel.contains ("/" ++ fn ++ "/**"))
  else
    getFileInfoLoop fn sel sel true false

/-- Some pattern in `l` starts with `"!/" + fn + "/"` (a child pattern,
line 183). -/
def hasChildPat (fn : String) (l : List String) : Bool :=
  l.any (fun p => strStartsWith p ("!/" ++ fn ++ "/"))

/-- Some pattern `p` in `l` is a parent pattern of `fn` (line 188):
`p + "/"` is a prefix of `"!/" + fn + "/"` and `p[1:] + "/**"` is absent
from the full sub-list `all`. -/
def hasParentPat (fn : String) (all l : List String) : Bool :=
  l.any (fun p => strStartsWith ("!/" ++ fn ++ "/") (p ++ "/")
    && !(all.contains (strDrop1 p ++ "/**")))


theorem hasChildPat_cons (fn p : String) (rest : List String) :
    hasChildPat fn (p :: rest)
      = (strStartsWith p ("!/" ++ fn ++ "/") || hasChildPat fn rest) := by
  simp [hasChildPat]

theorem hasParentPat_cons (fn p : String) (all rest : List String) :
    hasParentPat fn all (p :: rest)
      = ((strStartsWith ("!/" ++ fn ++ "/") (p ++ "/")
          && !(all.contains (strDrop1 p ++ "/**"))) || hasParentPat fn all rest) := by
  simp [hasParentPat]

/-- Closed form of the scan loop: a child pattern anywhere in the
remaining list wins with `(false, true)`; otherwise any parent pattern
forces `(false, false)`; otherwise the incoming pair survives. -/
theorem getFileInfoLoop_eq (fn : String) (all : List String) :
    ∀ (l : List String) (ig pa : Bool),
    getFileInfoLoop fn all l ig pa =
      if hasChildPat fn l then (false, true)
      else if hasParentPat fn all l then (false, false)
      else (ig, pa) := by
  intro l
  induction l with
  | nil => intro ig pa; simp [getFileInfoLoop, hasChildPat, hasParentPat]
  | cons p rest ih =>
    intro ig pa
    rw [hasChildPat_cons, hasParentPat_cons]
    by_cases h1 : strStartsWith p ("!/" ++ fn ++ "/")
    · rw [getFileInfoLoop, if_pos h1]
      simp [h1]
    · have hb1 : strStartsWith p ("!/" ++ fn ++ "/") = false := by
        revert h1; cases strStartsWith p ("!/" ++ fn ++ "/") <;> simp
      by_cases h2 : strStartsWith ("!/" ++ fn ++ "/") (p ++ "/")
          && !(all.contains (strDrop1 p ++ "/**"))
      · have h2' := h2
        simp only [Bool.and_eq_true] at h2'
        obtain ⟨ha, hb⟩ := h2'
        have hnm : strDrop1 p ++ "/**" ∉ all := by simpa using hb
        rw [getFileInfoLoop, if_neg h1, if_pos h2, ih false false]
        cases hc : hasChildPat fn rest <;>
          cases hp : hasParentPat fn all rest <;> simp [hc, hp, hb1, ha, hnm]
      · have hcond : ¬(strStartsWith ("!/" ++ fn ++ "/") (p ++ "/") = true
            ∧ strDrop1 p ++ "/**" ∉ all) := by
          rintro ⟨ha, hnm⟩
          apply h2
          have hcont : all.contains (strDrop1 p ++ "/**") = false := by simpa using hnm
          simp [ha, hcont, hnm]
        rw [getFileInfoLoop, if_neg h1, if_neg h2, ih ig pa]
        cases hc : hasChildPat fn rest <;>
          cases hp : hasParentPat fn all rest <;> simp [hc, hp, hb1, hcond]

/-- C9 counterexample: for the directory `"a/b"` with sub-list
`["!/a", "!/a/b", "/a/b/**"]` both `"!/" + fn` and `"/" + fn + "/**"` are
present, so the claim says the node is partial; but `"!/a"` is a parent
pattern (`"!/a/"` prefixes `"!/a/b/"` and `"/a/**"` is absent), and the
scan of lines 188-192 resets `ispartial` to `False`: the computed flags
are `(ignored, ispartial) = (false, false)`. -/
theorem getFileInfoExtendedFlags_cex :
    getFileInfoExtendedFlags "a/b" ["!/a", "!/a/b", "/a/b/**"] = (false, false) ∧
    List.contains ["!/a", "!/a/b", "/a/b/**"] ("!/" ++ "a/b") = true ∧
    List.contains ["!/a", "!/a/b", "/a/b/**"] ("/" ++ "a/b" ++ "/**") = true := by
  refine ⟨by decide, by decide, by decide⟩

/-- C9 amended: `getFileInfoExtended` marks a directory node `fn` not
ignored exactly when `"!/" + fn` is a member of the ignore-selective
sub-list, or some pattern starts with `"!/" + fn + "/"`, or some parent
pattern applies (a pattern `p` with `p + "/"` a prefix of
`"!/" + fn + "/"` whose `p[1:] + "/**"` is absent); and partial exactly
when some pattern starts with `"!/" + fn + "/"`, or `"!/" + fn` and
`"/" + fn + "/**"` are both members and no parent pattern applies. -/
theorem getFileInfoExtendedFlags_spec (fn : String) (sel : List String) :
    getFileInfoExtendedFlags fn sel =
      (!(sel.contains ("!/" ++ fn) || hasChildPat fn sel || hasParentPat fn sel sel),
       hasChildPat fn sel
         || (sel.contains ("!/" ++ fn) && sel.contains ("/" ++ fn ++ "/**")
             && !(hasParentPat fn sel sel))) := by
  unfold getFileInfoExtendedFlags
  by_cases hm : sel.contains ("!/" ++ fn)
  · have hmem : "!/" ++ fn ∈ sel := by simpa using hm
    rw [if_pos hm, getFileInfoLoop_eq]
    cases hc : hasChildPat fn sel <;> cases hp : hasParentPat fn sel sel <;>
      cases hs : sel.contains ("/" ++ fn ++ "/**") <;> simp [hm, hmem, hc, hp, hs]
  · have hmb : sel.contains ("!/" ++ fn) = false := by
      revert hm; cases sel.contains ("!/" ++ fn) <;> simp
    have hnmem : "!/" ++ fn ∉ sel := by simpa using hmb
    rw [if_neg hm, getFileInfoLoop_eq]
    cases hc : hasChildPat fn sel <;> cases hp : hasParentPat fn sel sel <;>
      simp [hmb, hnmem, hc, hp]
